import Mathlib

/-!
Verification of the sources manager of opencbdc-tctl
(src/coordinator/sources/sources.go) against its specification.

The Go code is a stateful component driving external git and shell
commands.  We embed it shallowly: every external command invocation and
every external library call (JSON unmarshalling, timestamp parsing) is an
oracle field of an environment structure, carrying exactly the data the
source reads from it.  The control flow, the guard order, the string
processing done in Go itself, and the final data assembly are translated
literally from the source.  Go runtime panics (slice bounds violations)
are modelled as an explicit outcome, distinct from returned errors.

Machine integers: the Go code uses int (64 bit) for offsets, limits and
PR numbers, and time.Time (nanoseconds) for timestamps.  None of the
relevant code paths can overflow 64 bits for inputs of realistic size and
no arithmetic in the source relies on wraparound, so we use Int directly.

Go map iteration order is unspecified; the model iterates PR head
commits in first-insertion order.  No claim below depends on that order:
the PR entries are sorted before use and the claims are about membership,
sortedness and segment structure.  Likewise sort.Slice is an unstable
sort; the model uses insertion sort, one of the permitted outcomes.
-/

/-- One record of the commit log, translated field for field from the Go
struct GitLogRecord (sources.go lines 24 to 34).  The time.Time values
are modelled as Int nanosecond timestamps; the Go zero time is 0. -/
structure GitLogRecord where
  commitHash : String
  parentCommitHash : String
  subject : String
  authorName : String
  authorEmail : String
  authoredString : String
  authored : Int
  committerName : String
  committerEmail : String
  committedString : String
  committed : Int
deriving DecidableEq

instance : Inhabited GitLogRecord :=
  ⟨⟨(""), (""), (""), (""), (""), (""), 0, (""), (""), (""), 0⟩⟩

/-- The PRData struct of sources.go lines 349 to 352. -/
structure PRData where
  subject : String
  authoredString : String
deriving DecidableEq

/-- The state of the SourcesManager relevant to the commit log: the
gitLog field (sources.go line 42).  The mutex only serializes calls and
is invisible in a sequential model. -/
structure SourcesManager where
  gitLog : List GitLogRecord
deriving DecidableEq

/-- Result of exec.Command(...).CombinedOutput(): the captured output and
whether err == nil. -/
structure CmdResult where
  out : String
  ok : Bool

/-- Outcome of updateCommitHistory: a nil return, a returned error, or a
Go runtime panic (slice bounds out of range). -/
inductive SyncOutcome
  | okSync
  | errSync
  | panikSync
deriving DecidableEq

/-- Environment of one updateCommitHistory call: the results of the
external commands it runs and of the external library calls it makes, in
source order.  unmarshalLog and unmarshalPR stand for json.Unmarshal,
timeParse for time.Parse with the fixed layout
Mon, 2 Jan 2006 15:04:05 -0700 (some t on success, none on error), and
now for time.Now() (called twice in the source within microseconds; the
claims are insensitive to that difference, so one value is used). -/
structure UCHEnv where
  gitLogCmd : CmdResult
  unmarshalLog : String → Except String (List GitLogRecord)
  timeParse : String → Option Int
  fetchPRsCmd : CmdResult
  lsRemoteCmd : CmdResult
  prLogCmd : String → CmdResult
  unmarshalPR : String → Except String PRData
  now : Int

/-- One nanosecond-denominated hour, the unit of time.Hour. -/
def hourNs : Int := 3600 * 1000000000

/-- The sentinel decoding applied to git output (sources.go lines 372,
373 and 464, 465): escape literal quotes, then turn each three-dollar
sentinel into a quote. -/
def sentinelDecode (s : String) : String :=
  (s.replace ("\"") ("\\\"")).replace ("$$$") ("\"")

/-- The string handed to json.Unmarshal for the mainline log
(sources.go lines 371 to 374): drop the last byte of the command output,
decode sentinels, wrap in brackets.  Callers must separately account for
the panic of out[0 : len(out)-1] on empty output. -/
def wrapped (env : UCHEnv) : String :=
  ("[") ++ sentinelDecode (env.gitLogCmd.out.dropRight 1) ++ ("]")

/-- The timestamp-resolution pass over a parsed mainline record
(sources.go lines 381 to 392): parse errors are discarded and leave the
zero time, then the raw strings are cleared. -/
def stampRecord (env : UCHEnv) (r : GitLogRecord) : GitLogRecord :=
  { r with
    committed := (env.timeParse r.committedString).getD 0
    authored := (env.timeParse r.authoredString).getD 0
    authoredString := ("")
    committedString := ("") }

/-- The numeric value of a run of decimal digit characters. -/
def natOfDigits (l : List Char) : Nat :=
  l.foldl (fun acc c => acc * 10 + (c.toNat - 48)) 0

/-- strconv.Atoi on the character list of a string: optional sign, then
one or more decimal digits.  The Go bit-width range check cannot fire
for any input these claims exercise and is omitted.  Strings are
processed as character lists throughout the ls-remote analysis; the
source operates on byte strings and every relevant input is ASCII, where
the two coincide. -/
def atoiChars (l : List Char) : Option Int :=
  match l with
  | [] => none
  | c :: cs =>
      let digits := if c = ('-') ∨ c = ('+') then cs else c :: cs
      if digits = [] then none
      else if digits.all Char.isDigit then
        some (if c = ('-') then -(natOfDigits digits : Int)
          else (natOfDigits digits : Int))
      else none

/-- Go map assignment on an association list: replace the binding in
place when the key is present, append otherwise. -/
def mapUpd (k : Int) (v : String) : List (Int × String) → List (Int × String)
  | [] => [(k, v)]
  | (k2, v2) :: rest =>
      if k2 = k then (k, v) :: rest else (k2, v2) :: mapUpd k v rest

/-- Go map assignment prs[pr] = true modelled as set insertion; only
membership of the map is ever read. -/
def insertPR (pr : Int) (l : List Int) : List Int :=
  if l.contains pr then l else l ++ [pr]

/-- Splitting a character list at every occurrence of a separator, the
semantics of strings.Split for the one-character separators this code
uses; the empty input yields one empty part, as in Go. -/
def splitOnChar (c : Char) : List Char → List (List Char)
  | [] => [[]]
  | x :: xs =>
      match splitOnChar c xs with
      | [] => [[]]
      | y :: ys => if x = c then [] :: y :: ys else (x :: y) :: ys

/-- The ls-remote line loop (sources.go lines 422 to 445): split the
output into lines, each line into tab-separated parts; for two-part
lines whose ref starts with refs/pull/, parse the PR number from the
segment after that prefix; a .../merge suffix marks the PR mergeable, a
.../head suffix records its head commit.  The source removes the first
occurrence of refs/pull/, which under the prefix guard is the prefix
itself, and reads element 0 of the slash split, which is never empty. -/
def classifyRemoteRefs (out : String) : List Int × List (Int × String) :=
  (splitOnChar ('\n') out.toList).foldl
    (fun acc line =>
      match splitOnChar ('\t') line with
      | [sha, ref] =>
          if List.isPrefixOf (("refs/pull/").toList) ref then
            match atoiChars
                ((splitOnChar ('/')
                  (List.drop (("refs/pull/").toList.length) ref)).headD []) with
            | some pr =>
                if List.isSuffixOf (("/merge").toList) ref then
                  (insertPR pr acc.1, acc.2)
                else if List.isSuffixOf (("/head").toList) ref then
                  (acc.1, mapUpd pr (String.mk sha) acc.2)
                else acc
            | none => acc
          else acc
      | _ => acc)
    ([], [])

/-- The PRs with a recorded head commit, in model iteration order. -/
def prHeads (env : UCHEnv) : List (Int × String) :=
  (classifyRemoteRefs env.lsRemoteCmd.out).2

/-- Whether a PR number was marked mergeable (prs[pr] lookup,
sources.go line 449; absent keys read false). -/
def isMergeable (env : UCHEnv) (pr : Int) : Bool :=
  (classifyRemoteRefs env.lsRemoteCmd.out).1.contains pr

/-- The synthetic log record built for a retained PR (sources.go lines
487 to 492): committed equals authored, the subject is prefixed with the
PR number, every other field keeps its Go zero value. -/
def mkPRRecord (pr : Int) (head : String) (subject : String) (authored : Int) :
    GitLogRecord :=
  { commitHash := head
    parentCommitHash := ("")
    subject := ("PR #") ++ toString pr ++ (" - ") ++ subject
    authorName := ("")
    authorEmail := ("")
    authoredString := ("")
    authored := authored
    committerName := ("")
    committerEmail := ("")
    committedString := ("")
    committed := authored }

/-- The per-PR fetch-and-parse pipeline of the loop body (sources.go
lines 450 to 481): run git log -n 1 on the head commit, decode
sentinels, unmarshal, parse the authored date.  Any failure makes the
loop skip the PR (continue), modelled as none. -/
def prParsed (env : UCHEnv) (head : String) : Option (String × Int) :=
  let res := env.prLogCmd head
  if res.ok = false then none
  else
    match env.unmarshalPR (sentinelDecode res.out) with
    | .error _ => none
    | .ok d =>
        match env.timeParse d.authoredString with
        | none => none
        | some t => some (d.subject, t)

/-- The full loop body for one PR head (sources.go lines 448 to 497):
parse, then retain the entry iff it was authored strictly within the
last 48 hours, or the PR is mergeable and it was authored strictly
within the last 90 days. -/
def prEntry (env : UCHEnv) (mergeable : Bool) (pr : Int) (head : String) :
    Option GitLogRecord :=
  match prParsed env head with
  | none => none
  | some sa =>
      if env.now - 2 * 24 * hourNs < sa.2 ∨
          (mergeable = true ∧ env.now - 90 * 24 * hourNs < sa.2) then
        some (mkPRRecord pr head sa.1 sa.2)
      else none

/-- The retained PR records in loop order, before sorting. -/
def retainedPRs (env : UCHEnv) : List GitLogRecord :=
  (prHeads env).filterMap (fun ph => prEntry env (isMergeable env ph.1) ph.1 ph.2)

/-- The comparison of the sort.Slice call (sources.go lines 499 to 501):
newest authored date first. -/
def prOrder (a b : GitLogRecord) : Prop := b.authored ≤ a.authored

instance : DecidableRel prOrder :=
  fun a b => inferInstanceAs (Decidable (b.authored ≤ a.authored))

instance : IsTotal GitLogRecord prOrder :=
  ⟨fun a b => le_total b.authored a.authored⟩

instance : IsTrans GitLogRecord prOrder :=
  ⟨fun _ _ _ h1 h2 => le_trans h2 h1⟩

/-- The sorted PR segment spliced into the final log. -/
def prSegment (env : UCHEnv) : List GitLogRecord :=
  List.insertionSort prOrder (retainedPRs env)

/-- The parsed mainline export, none when the command failed, its output
was empty (which panics in the source before parsing), or unmarshalling
failed. -/
def rawMainline (env : UCHEnv) : Option (List GitLogRecord) :=
  if env.gitLogCmd.ok = false then none
  else if env.gitLogCmd.out.isEmpty then none
  else
    match env.unmarshalLog (wrapped env) with
    | .error _ => none
    | .ok raw => some raw

/-- The mainline records after the timestamp-resolution pass. -/
def mainlineRecords (env : UCHEnv) : List GitLogRecord :=
  ((rawMainline env).getD []).map (stampRecord env)

/-- updateCommitHistory (sources.go lines 354 to 507) as a state
transformer.  Guard order follows the source: git log failure returns
its error; empty output panics at out[0 : len(out)-1]; an unmarshal
error is returned; the PR fetch and ls-remote failures are returned; the
final splice panics when the mainline export has fewer than three
records, because newGitLog[3:] (and for short capacities newGitLog[0:3])
is a slice bounds violation; otherwise the stored log is replaced by
first three mainline records, sorted PR entries, remaining mainline
records.  The stored log is written exactly once, on the success path,
as in the source. -/
def updateCommitHistory (env : UCHEnv) (s : SourcesManager) :
    SourcesManager × SyncOutcome :=
  if env.gitLogCmd.ok = false then (s, .errSync)
  else if env.gitLogCmd.out.isEmpty then (s, .panikSync)
  else
    match env.unmarshalLog (wrapped env) with
    | .error _ => (s, .errSync)
    | .ok raw =>
        if env.fetchPRsCmd.ok = false then (s, .errSync)
        else if env.lsRemoteCmd.ok = false then (s, .errSync)
        else if (raw.map (stampRecord env)).length < 3 then (s, .panikSync)
        else
          (⟨(raw.map (stampRecord env)).take 3 ++ prSegment env
              ++ (raw.map (stampRecord env)).drop 3⟩,
            .okSync)

/-!
GetGitLog (sources.go lines 639 to 660).

The Go method returns a slice aliasing the backing array of s.gitLog.
When alwaysIncludeInitial is set, append(ret, oldest) writes the backing
array at index end whenever end is below the length of s.gitLog (the
slice ret then has spare capacity inside the stored log), overwriting a
stored record.  The model therefore returns both the result of the call
and the stored log as it stands after the call.  Negative offsets or
limits reach the slice expression s.gitLog[offset:end] with offset below
zero or end below offset, a runtime panic.
-/

/-- Outcome of a GetGitLog call: the returned slice, the out-of-bounds
error, or a runtime panic on a slice bounds violation. -/
inductive GGLOut
  | ok (ret : List GitLogRecord)
  | errOOB
  | panik
deriving DecidableEq

/-- GetGitLog as a function of the stored log and the three arguments,
returning the call outcome and the stored log after the call. -/
def GetGitLog (log : List GitLogRecord) (offset limit : Int)
    (alwaysIncludeInitial : Bool) : GGLOut × List GitLogRecord :=
  if log.length = 0 then (.ok [], log)
  else if (log.length : Int) ≤ offset then (.errOOB, log)
  else
    let e0 : Int := offset + limit
    let e : Int := if (log.length : Int) < e0 then (log.length : Int) else e0
    if offset < 0 ∨ e < offset then (.panik, log)
    else
      let ret := (log.take e.toNat).drop offset.toNat
      if alwaysIncludeInitial then
        (.ok (ret ++ [log.getLastD default]),
          if e < (log.length : Int) then log.set e.toNat (log.getLastD default)
          else log)
      else (.ok ret, log)

/-!
Compile (sources.go lines 118 to 347).

The observable behaviour of Compile is a result (nil or a wrapped error
naming the failing phase), an update of the world of existing binary
archives, and a trace of external effects: progress values sent on the
channel, the channel close, and each external command or filesystem
action.  The deferred block (lines 123 to 128) always sends 100 and
closes the channel on function exit when the channel is non-nil, and is
modelled as a wrapper around the function body.
-/

/-- The scripts Compile may run. -/
inductive ScriptName
  | installBuildTools
  | setupDependencies
  | configureScript
deriving DecidableEq

/-- Observable events of one Compile call, in order. -/
inductive CompileEvent
  | send (v : Int)
  | closeChan
  | checkout
  | submoduleSync
  | submoduleUpdate
  | removeBuildDir
  | runScript (name : ScriptName)
  | runBuild
  | copyProxy
  | createArchive
deriving DecidableEq

/-- The error results of Compile, one per wrapping site in the source. -/
inductive CompileErr
  | pathErr
  | checkoutErr
  | syncErr
  | updateErr
  | buildEnvSetupErr
  | depInstallErr
  | legacyErr
  | buildErr
  | archiveErr
deriving DecidableEq

/-- The world state Compile interacts with: the set of binary archive
paths that exist.  A successful archive creation adds the target path;
nothing ever removes one. -/
structure CompileState where
  archives : List String
deriving DecidableEq

/-- Environment of one Compile call: the path computed by
BinariesArchivePath (or its error), whether the progress channel is
non-nil, and the success of each external command, keyed where the
source keys it. -/
structure CompileEnv where
  archivePathRes : String → Bool → Except Unit String
  progressNonNil : Bool
  checkoutOk : String → Bool
  submoduleSyncOk : Bool
  submoduleUpdateOk : Bool
  installToolsPresent : Bool
  installToolsOk : Bool
  setupDepsPresent : Bool
  setupDepsOk : Bool
  configurePresent : Bool
  configureOk : Bool
  buildOk : Bool
  proxyPresent : Bool
  createArchiveOk : Bool

/-- Progress sends, emitted only when the channel is non-nil. -/
def sends (env : CompileEnv) (vs : List Int) : List CompileEvent :=
  if env.progressNonNil then vs.map CompileEvent.send else []

/-- The environment-setup phase (sources.go lines 198 to 288) as events
plus an optional error.  The avoid_legacy_setup flag ends up true
exactly when both modern scripts are present (a present script that
fails returns before the flag is read); when it is false the legacy
configure script is consulted, and its absence or failure is an error.
The dead flag writes before the two early returns in the source do not
change any observable behaviour. -/
def setupPhase (env : CompileEnv) : List CompileEvent × Option CompileErr :=
  if env.installToolsPresent = true ∧ env.installToolsOk = false then
    ([.runScript .installBuildTools], some .buildEnvSetupErr)
  else
    let t1 : List CompileEvent :=
      if env.installToolsPresent then [.runScript .installBuildTools] else []
    if env.setupDepsPresent = true ∧ env.setupDepsOk = false then
      (t1 ++ [.runScript .setupDependencies], some .depInstallErr)
    else
      let t2 : List CompileEvent :=
        t1 ++ (if env.setupDepsPresent then [.runScript .setupDependencies] else [])
      let avoidLegacy := env.installToolsPresent && env.setupDepsPresent
      if avoidLegacy then (t2, none)
      else if env.configurePresent = false then (t2, some .legacyErr)
      else if env.configureOk = false then
        (t2 ++ [.runScript .configureScript], some .legacyErr)
      else (t2 ++ [.runScript .configureScript], none)

/-- The body of Compile, before the deferred channel epilogue: path
resolution, progress 1, lock, progress 2, the idempotence short circuit
on an existing archive, checkout, progress 5, submodule sync and update,
progress 10, build-directory removal, environment setup, progress 50,
the build script, progress 90, the optional proxy copy, and archive
creation (sources.go lines 130 to 347). -/
def compileBody (env : CompileEnv) (hash : String) (prof : Bool)
    (st : CompileState) : CompileState × Option CompileErr × List CompileEvent :=
  match env.archivePathRes hash prof with
  | .error _ => (st, some .pathErr, [])
  | .ok path =>
      let t0 := sends env [1, 2]
      if st.archives.contains path then (st, none, t0)
      else if env.checkoutOk hash = false then
        (st, some .checkoutErr, t0 ++ [.checkout])
      else
        let t1 := t0 ++ [.checkout] ++ sends env [5]
        if env.submoduleSyncOk = false then
          (st, some .syncErr, t1 ++ [.submoduleSync])
        else if env.submoduleUpdateOk = false then
          (st, some .updateErr, t1 ++ [.submoduleSync, .submoduleUpdate])
        else
          let t2 := t1 ++ [.submoduleSync, .submoduleUpdate] ++ sends env [10]
            ++ [.removeBuildDir]
          match (setupPhase env).2 with
          | some e => (st, some e, t2 ++ (setupPhase env).1)
          | none =>
              let t3 := t2 ++ (setupPhase env).1 ++ sends env [50]
              if env.buildOk = false then (st, some .buildErr, t3 ++ [.runBuild])
              else
                let t4 := t3 ++ [.runBuild] ++ sends env [90]
                  ++ (if env.proxyPresent then [.copyProxy] else [])
                if env.createArchiveOk = false then
                  (st, some .archiveErr, t4 ++ [.createArchive])
                else (⟨path :: st.archives⟩, none, t4 ++ [.createArchive])

/-- Compile: the body followed by the deferred progress epilogue, which
sends 100 and closes the channel on every exit path when the channel is
non-nil (sources.go lines 123 to 128). -/
def Compile (env : CompileEnv) (hash : String) (prof : Bool)
    (st : CompileState) : CompileState × Option CompileErr × List CompileEvent :=
  let r := compileBody env hash prof st
  (r.1, r.2.1,
    r.2.2 ++ (if env.progressNonNil then [.send 100, .closeChan] else []))

/-- Whether an event is an external action rather than progress-channel
traffic. -/
def isExternal : CompileEvent → Bool
  | .send _ => false
  | .closeChan => false
  | _ => true

/-- The non-progress events of a trace: everything except channel sends
and the channel close. -/
def externEvents (t : List CompileEvent) : List CompileEvent :=
  t.filter isExternal

/-- The progress-channel discipline of a single event: never a close,
and any sent value lies in the 0 to 100 range. -/
def eventOKb : CompileEvent → Bool
  | .closeChan => false
  | .send v => decide (0 ≤ v ∧ v ≤ 100)
  | _ => true

/-- The assembly property of a successful synchronization: the final log
is the first three mainline records, the sorted PR segment, then the
remaining mainline records; the PR segment is sorted newest first and is
a permutation of the retained PR entries. -/
def assembledOK (env : UCHEnv) (final : List GitLogRecord) : Prop :=
  final = (mainlineRecords env).take 3 ++ prSegment env ++ (mainlineRecords env).drop 3
  ∧ List.Sorted prOrder (prSegment env)
  ∧ (prSegment env).Perm (retainedPRs env)

/-!
Concrete inputs used by witnesses and counterexamples.
-/

/-- A mainline record with a given subject and all other fields at their
Go zero values. -/
def mRec (s : String) : GitLogRecord :=
  { (default : GitLogRecord) with subject := s }

def rA : GitLogRecord := mRec ("r1")

def rB : GitLogRecord := mRec ("r2")

def rC : GitLogRecord := mRec ("r3")

def stEmpty : SourcesManager := ⟨[]⟩

/-- A baseline environment where every command succeeds, the mainline
export parses to three records, there are no PRs, and every date parses
to time zero. -/
def baseUCHEnv : UCHEnv :=
  { gitLogCmd := ⟨("x,"), true⟩
    unmarshalLog := fun _ => Except.ok [rA, rB, rC]
    timeParse := fun _ => some 0
    fetchPRsCmd := ⟨(""), true⟩
    lsRemoteCmd := ⟨(""), true⟩
    prLogCmd := fun _ => ⟨(""), true⟩
    unmarshalPR := fun _ => Except.ok ⟨("s"), ("d")⟩
    now := 0 }

/-- An environment whose initial git log command fails. -/
def envFailLog : UCHEnv := { baseUCHEnv with gitLogCmd := ⟨(""), false⟩ }

/-- An environment in which every mainline timestamp fails to parse and
the single PR head commit cannot be fetched: the source skips both. -/
def envParseFail : UCHEnv :=
  { baseUCHEnv with
    timeParse := fun _ => none
    lsRemoteCmd := ⟨("sha9\trefs/pull/9/head"), true⟩
    prLogCmd := fun _ => ⟨(""), false⟩ }

/-- An environment whose mainline export parses to a single record, as
for a repository with one commit. -/
def envShortLog : UCHEnv :=
  { baseUCHEnv with unmarshalLog := fun _ => Except.ok [rA] }

/-- An environment with three mainline records and one non-mergeable PR
whose head parses with authored date equal to now. -/
def envOnePR : UCHEnv :=
  { baseUCHEnv with
    lsRemoteCmd := ⟨("sha1\trefs/pull/7/head"), true⟩
    unmarshalPR := fun _ => Except.ok ⟨("fix"), ("d")⟩ }

/-- A compile environment where every step succeeds and the archive path
for a hash is the hash itself. -/
def envCompileAll : CompileEnv :=
  { archivePathRes := fun h _ => Except.ok h
    progressNonNil := true
    checkoutOk := fun _ => true
    submoduleSyncOk := true
    submoduleUpdateOk := true
    installToolsPresent := true
    installToolsOk := true
    setupDepsPresent := true
    setupDepsOk := true
    configurePresent := true
    configureOk := true
    buildOk := true
    proxyPresent := true
    createArchiveOk := true }

/-- A compile environment where install-build-tools.sh is present but
fails. -/
def envToolsFail : CompileEnv :=
  { envCompileAll with installToolsOk := false }

def hashW : String := ("h1")

def stC0 : CompileState := ⟨[]⟩

/-!
Theorems.
-/

/-- C1: every call to updateCommitHistory that returns an error leaves
the stored commit log bit-for-bit identical to its value before the
call; the new log is assigned only after every preceding step succeeded,
so no failing execution leaves a partially rebuilt log. -/
theorem sync_error_preserves_log (env : UCHEnv) (s : SourcesManager)
    (h : (updateCommitHistory env s).2 = SyncOutcome.errSync) :
    (updateCommitHistory env s).1 = s := by
  revert h
  unfold updateCommitHistory
  repeat' split
  all_goals intro h
  all_goals first | rfl | simp at h

/-- C1 witness: with a failing git log command the error return leaves
the empty stored log unchanged. -/
theorem sync_error_preserves_log_witness :
    (updateCommitHistory envFailLog stEmpty).1 = stEmpty :=
  sync_error_preserves_log envFailLog stEmpty (by rfl)

/-- C7 counterexample: the claim says a timestamp parse failure on a
mainline record, or a failure to fetch the most recent commit of a PR
head, aborts the Synchronize call with an error.  In envParseFail every
mainline timestamp fails to parse (timeParse always returns none) and
the single PR head log command fails, yet updateCommitHistory returns
success: the source discards mainline parse errors and skips failing
PRs with continue. -/
theorem sync_parse_failure_no_abort :
    (updateCommitHistory envParseFail stEmpty).2 = SyncOutcome.okSync := by
  rfl

/-- C7 amended: updateCommitHistory returns an error exactly when the
mainline git log command fails, its decoded output fails to unmarshal,
the PR fetch command fails, or the ls-remote command fails; per-record
timestamp parse failures and per-PR fetch or parse failures never abort
the call. -/
theorem sync_abort_characterization (env : UCHEnv) (s : SourcesManager) :
    (updateCommitHistory env s).2 = SyncOutcome.errSync ↔
      (env.gitLogCmd.ok = false
        ∨ (env.gitLogCmd.ok = true ∧ env.gitLogCmd.out.isEmpty = false
            ∧ ∃ e, env.unmarshalLog (wrapped env) = Except.error e)
        ∨ (env.gitLogCmd.ok = true ∧ env.gitLogCmd.out.isEmpty = false
            ∧ (∃ raw, env.unmarshalLog (wrapped env) = Except.ok raw)
            ∧ env.fetchPRsCmd.ok = false)
        ∨ (env.gitLogCmd.ok = true ∧ env.gitLogCmd.out.isEmpty = false
            ∧ (∃ raw, env.unmarshalLog (wrapped env) = Except.ok raw)
            ∧ env.fetchPRsCmd.ok = true ∧ env.lsRemoteCmd.ok = false)) := by
  unfold updateCommitHistory
  repeat' split
  all_goals simp_all

/-- C10 counterexample: the claim says updateCommitHistory never crashes
with an out-of-range slice access, even when the mainline export has
fewer than three records.  With a single parsed mainline record the
splice newGitLog[3:] (and, for the capacities json.Unmarshal produces,
newGitLog[0:3]) is a slice bounds violation: the call panics. -/
theorem sync_short_history_panics :
    (updateCommitHistory envShortLog stEmpty).2 = SyncOutcome.panikSync := by
  rfl

/-- C10 amended: updateCommitHistory panics with an out-of-range slice
access exactly when the git log command succeeds with empty output, or
its output unmarshals to fewer than three records and the PR fetch and
ls-remote commands succeed; in every other case it terminates with
success or a returned error. -/
theorem sync_panic_characterization (env : UCHEnv) (s : SourcesManager) :
    (updateCommitHistory env s).2 = SyncOutcome.panikSync ↔
      (env.gitLogCmd.ok = true ∧
        (env.gitLogCmd.out.isEmpty = true
          ∨ (env.gitLogCmd.out.isEmpty = false
              ∧ ∃ raw, env.unmarshalLog (wrapped env) = Except.ok raw
                ∧ env.fetchPRsCmd.ok = true ∧ env.lsRemoteCmd.ok = true
                ∧ raw.length < 3))) := by
  unfold updateCommitHistory
  repeat' split
  all_goals simp_all

/-- Helper: a successful updateCommitHistory call produced exactly the
positional splice of the stamped mainline records around the sorted PR
segment. -/
theorem sync_success_shape (env : UCHEnv) (s : SourcesManager)
    (final : List GitLogRecord)
    (hrun : updateCommitHistory env s = (⟨final⟩, SyncOutcome.okSync)) :
    final = (mainlineRecords env).take 3 ++ prSegment env
      ++ (mainlineRecords env).drop 3 := by
  revert hrun
  unfold updateCommitHistory
  repeat' split
  all_goals intro hrun
  all_goals simp_all [mainlineRecords, rawMainline]

/-- C4: every successful synchronization stores the first three mainline
records in original order, then the retained PR records sorted by
authored date descending (newest first), then the remaining mainline
records in original order: a positional splice, not a timestamp merge. -/
theorem final_log_assembly (env : UCHEnv) (s : SourcesManager)
    (final : List GitLogRecord)
    (hrun : updateCommitHistory env s = (⟨final⟩, SyncOutcome.okSync)) :
    assembledOK env final :=
  ⟨sync_success_shape env s final hrun,
    List.sorted_insertionSort prOrder (retainedPRs env),
    List.perm_insertionSort prOrder (retainedPRs env)⟩

/-- C4 witness: a run with three mainline records and no PRs stores
exactly those three records, in order. -/
theorem final_log_assembly_witness :
    assembledOK baseUCHEnv [rA, rB, rC] :=
  final_log_assembly baseUCHEnv stEmpty [rA, rB, rC] (by rfl)

/-- Helper: the digit-accumulator of Nat.toDigitsCore only prepends, so
the accumulator is an exact suffix of the result. -/
theorem toDigitsCore_append : ∀ (fuel n : Nat) (ds : List Char),
    Nat.toDigitsCore 10 fuel n ds = Nat.toDigitsCore 10 fuel n [] ++ ds := by
  intro fuel
  induction fuel with
  | zero => intro n ds; rfl
  | succ fuel ih =>
      intro n ds
      by_cases h0 : n / 10 = 0
      · simp [Nat.toDigitsCore, h0]
      · simp [Nat.toDigitsCore, h0]
        rw [ih (n / 10) (Nat.digitChar (n % 10) :: ds),
          ih (n / 10) [Nat.digitChar (n % 10)]]
        simp

/-- Helper: appending one digit multiplies the accumulated value by ten
and adds the digit value. -/
theorem natOfDigits_append_digit (l : List Char) (c : Char) :
    natOfDigits (l ++ [c]) = natOfDigits l * 10 + (c.toNat - 48) := by
  unfold natOfDigits
  rw [List.foldl_append]
  rfl

/-- Helper: the character of a decimal digit decodes back to its
value. -/
theorem digitChar_val (k : Nat) (h : k < 10) :
    (Nat.digitChar k).toNat - 48 = k := by
  interval_cases k <;> decide

/-- Helper: the character of a decimal digit is a digit character. -/
theorem digitChar_isDigit (k : Nat) (h : k < 10) :
    (Nat.digitChar k).isDigit = true := by
  interval_cases k <;> decide

/-- Helper: with enough fuel, the digit string of a natural number
decodes back to the number. -/
theorem toDigitsCore_val : ∀ (fuel n : Nat), n < 10 ^ fuel →
    natOfDigits (Nat.toDigitsCore 10 fuel n []) = n := by
  intro fuel
  induction fuel with
  | zero =>
      intro n h
      have hn : n = 0 := by simpa using h
      subst hn
      rfl
  | succ fuel ih =>
      intro n h
      by_cases h0 : n / 10 = 0
      · have hn : n < 10 := by omega
        have hmod : n % 10 = n := by omega
        simp [Nat.toDigitsCore, h0]
        have hv : natOfDigits [Nat.digitChar (n % 10)] =
            (Nat.digitChar (n % 10)).toNat - 48 := by
          unfold natOfDigits
          simp
        rw [hv, hmod, digitChar_val n hn]
      · simp [Nat.toDigitsCore, h0]
        rw [toDigitsCore_append fuel (n / 10) [Nat.digitChar (n % 10)],
          natOfDigits_append_digit]
        have hpow : 10 ^ (fuel + 1) = 10 ^ fuel * 10 := pow_succ 10 fuel
        have hlt : n / 10 < 10 ^ fuel := by omega
        rw [ih (n / 10) hlt, digitChar_val (n % 10) (Nat.mod_lt n (by norm_num))]
        omega

/-- Helper: the decimal rendering of a natural number decodes back to
the number, so the rendering is injective. -/
theorem natRepr_val (n : Nat) : natOfDigits (Nat.repr n).data = n := by
  have hb : n < 10 ^ (n + 1) :=
    lt_of_lt_of_le (Nat.lt_pow_self (by norm_num) n)
      (Nat.pow_le_pow_right (by norm_num) (Nat.le_succ n))
  exact toDigitsCore_val (n + 1) n hb

/-- Helper: Nat.repr is injective. -/
theorem natRepr_inj (n m : Nat) (h : (Nat.repr n).data = (Nat.repr m).data) :
    n = m := by
  have h1 := natRepr_val n
  rw [h, natRepr_val m] at h1
  exact h1.symm

/-- Helper: every character produced by Nat.toDigitsCore on a digit
accumulator is a digit character. -/
theorem toDigitsCore_digits : ∀ (fuel n : Nat) (ds : List Char),
    (∀ c ∈ ds, c.isDigit = true) →
    ∀ c ∈ Nat.toDigitsCore 10 fuel n ds, c.isDigit = true := by
  intro fuel
  induction fuel with
  | zero => intro n ds hds; simpa [Nat.toDigitsCore] using hds
  | succ fuel ih =>
      intro n ds hds
      have hd : (Nat.digitChar (n % 10)).isDigit = true :=
        digitChar_isDigit (n % 10) (Nat.mod_lt n (by norm_num))
      by_cases h0 : n / 10 = 0
      · intro c hc
        simp [Nat.toDigitsCore, h0] at hc
        rcases hc with rfl | hc
        exacts [hd, hds c hc]
      · intro c hc
        simp only [Nat.toDigitsCore] at hc
        rw [if_neg h0] at hc
        refine ih (n / 10) (Nat.digitChar (n % 10) :: ds) ?_ c hc
        intro c2 hc2
        rcases List.mem_cons.mp hc2 with rfl | hc2
        exacts [hd, hds c2 hc2]

/-- Helper: every character of Nat.repr is a digit. -/
theorem natRepr_digits (n : Nat) : ∀ c ∈ (Nat.repr n).data, c.isDigit = true :=
  toDigitsCore_digits (n + 1) n [] (by simp)

/-- Helper: the decimal rendering of an integer, as produced by the
Sprintf verb for integers, is injective: a nonnegative rendering is all
digits, a negative one starts with a minus sign, and Nat.repr is
injective. -/
theorem int_toString_data_inj (p q : Int)
    (h : (toString p).data = (toString q).data) : p = q := by
  cases p with
  | ofNat m =>
      cases q with
      | ofNat k =>
          have h2 : (Nat.repr m).data = (Nat.repr k).data := h
          rw [natRepr_inj m k h2]
      | negSucc k =>
          exfalso
          have h2 : (Nat.repr m).data = ('-') :: (Nat.repr (k + 1)).data := h
          have hd := natRepr_digits m ('-') (by rw [h2]; exact List.mem_cons_self _ _)
          exact absurd hd (by decide)
  | negSucc m =>
      cases q with
      | ofNat k =>
          exfalso
          have h2 : ('-') :: (Nat.repr (m + 1)).data = (Nat.repr k).data := h
          have hd := natRepr_digits k ('-') (by rw [← h2]; exact List.mem_cons_self _ _)
          exact absurd hd (by decide)
      | negSucc k =>
          have h2 : ('-') :: (Nat.repr (m + 1)).data
              = ('-') :: (Nat.repr (k + 1)).data := h
          have h3 : (Nat.repr (m + 1)).data = (Nat.repr (k + 1)).data := by
            simpa using h2
          have h4 := natRepr_inj (m + 1) (k + 1) h3
          have hm : m = k := by omega
          rw [hm]

/-- Helper: no space character occurs in the decimal rendering of an
integer. -/
theorem space_not_mem_int_toString (p : Int) : (' ') ∉ (toString p).data := by
  intro hmem
  cases p with
  | ofNat m =>
      have hd := natRepr_digits m (' ') hmem
      exact absurd hd (by decide)
  | negSucc m =>
      have hmem2 : (' ') ∈ ('-') :: (Nat.repr (m + 1)).data := hmem
      rcases List.mem_cons.mp hmem2 with heq | hmem3
      · exact absurd heq (by decide)
      · exact absurd (natRepr_digits (m + 1) (' ') hmem3) (by decide)

/-- Helper: two concatenations that agree, where the left parts are
space-free and the right parts start with a space, split at the first
space: the left parts are equal. -/
theorem append_space_cancel : ∀ (l1 l2 r1 r2 : List Char),
    (' ') ∉ l1 → (' ') ∉ l2 →
    l1 ++ ((' ') :: r1) = l2 ++ ((' ') :: r2) → l1 = l2 := by
  intro l1
  induction l1 with
  | nil =>
      intro l2 r1 r2 _ h2 heq
      cases l2 with
      | nil => rfl
      | cons c l2t =>
          exfalso
          simp at heq
          exact h2 (by rw [← heq.1]; exact List.mem_cons_self _ _)
  | cons c l1t ih =>
      intro l2 r1 r2 h1 h2 heq
      cases l2 with
      | nil =>
          exfalso
          simp at heq
          exact h1 (by rw [heq.1]; exact List.mem_cons_self _ _)
      | cons c2 l2t =>
          simp at heq
          have hrec := ih l2t r1 r2 (fun hm => h1 (List.mem_cons_of_mem _ hm))
            (fun hm => h2 (List.mem_cons_of_mem _ hm)) heq.2
          rw [heq.1, hrec]

/-- Helper: the subject encoding of a synthetic PR record determines
the PR number: the fixed prefix cancels, the decimal number is
space-free, the separator starts with the first space, and the decimal
rendering is injective. -/
theorem mkPRRecord_subject_inj (p2 pr : Int) (a b : String)
    (h : ("PR #") ++ toString p2 ++ (" - ") ++ a
      = ("PR #") ++ toString pr ++ (" - ") ++ b) :
    p2 = pr := by
  have hdata := congrArg String.data h
  simp only [String.data_append, List.append_assoc] at hdata
  have hcancel := List.append_cancel_left hdata
  have hcancel2 : (toString p2).data ++ ((' ') :: ('-') :: (' ') :: a.data)
      = (toString pr).data ++ ((' ') :: ('-') :: (' ') :: b.data) := hcancel
  exact int_toString_data_inj p2 pr
    (append_space_cancel _ _ _ _ (space_not_mem_int_toString p2)
      (space_not_mem_int_toString pr) hcancel2)

/-- C3: in a successful synchronization, a PR head record that the loop
considered and parsed contributes its synthetic entry to the PR segment
of the rebuilt log if and only if it was authored within the last 48
hours, or the PR is currently mergeable and it was authored within the
last 90 days; every other considered PR record is dropped.  No
side condition is needed: the synthetic subject embeds the PR number
and the commit hash field embeds the head, so entries of distinct PR
head records are distinct. -/
theorem pr_retention_policy (env : UCHEnv) (s : SourcesManager)
    (final : List GitLogRecord) (pr : Int) (head subject : String) (authored : Int)
    (hrun : updateCommitHistory env s = (⟨final⟩, SyncOutcome.okSync))
    (hmem : (pr, head) ∈ prHeads env)
    (hparse : prParsed env head = some (subject, authored)) :
    final = (mainlineRecords env).take 3 ++ prSegment env
      ++ (mainlineRecords env).drop 3
    ∧ (mkPRRecord pr head subject authored ∈ prSegment env ↔
        (env.now - 2 * 24 * hourNs < authored
          ∨ (isMergeable env pr = true ∧ env.now - 90 * 24 * hourNs < authored))) := by
  refine ⟨sync_success_shape env s final hrun, ?_⟩
  have hperm : (prSegment env).Perm (retainedPRs env) :=
    List.perm_insertionSort prOrder (retainedPRs env)
  rw [hperm.mem_iff]
  unfold retainedPRs
  rw [List.mem_filterMap]
  constructor
  · rintro ⟨⟨p2, h2⟩, hm2, hf⟩
    unfold prEntry at hf
    cases hp : prParsed env h2 with
    | none => rw [hp] at hf; simp at hf
    | some sa =>
        rw [hp] at hf
        dsimp only at hf
        split at hf
        · have hrec := Option.some.inj hf
          have hhash : h2 = head := congrArg GitLogRecord.commitHash hrec
          have hsubj : ("PR #") ++ toString p2 ++ (" - ") ++ sa.1
              = ("PR #") ++ toString pr ++ (" - ") ++ subject :=
            congrArg GitLogRecord.subject hrec
          have hp2 : p2 = pr := mkPRRecord_subject_inj p2 pr sa.1 subject hsubj
          subst hhash
          subst hp2
          rw [hp] at hparse
          have hsa : sa = (subject, authored) := Option.some.inj hparse
          subst hsa
          assumption
        · simp at hf
  · intro hcond
    refine ⟨(pr, head), hmem, ?_⟩
    unfold prEntry
    rw [hparse]
    dsimp only
    split
    · rfl
    · next hneg => exact absurd hcond hneg

/-- C3 witness: a non-mergeable PR authored at the current instant is
retained and appears in the PR segment. -/
theorem pr_retention_policy_witness :
    mkPRRecord 7 ("sha1") ("fix") 0 ∈ prSegment envOnePR :=
  ((pr_retention_policy envOnePR stEmpty
      [rA, rB, rC, mkPRRecord 7 ("sha1") ("fix") 0]
      7 ("sha1") ("fix") 0 (by rfl) (by decide) (by rfl)).2).mpr (by decide)

/-- C2 counterexample: the claim quantifies over every (offset, limit,
includeOldest) and promises the window of records whenever the log is
nonempty and offset is below the length.  At offset -1 on a one-record
log the source reaches s.gitLog[offset:end] with a negative offset, a
slice bounds violation: the call panics instead of returning records. -/
theorem getGitLog_negative_offset_panics :
    (GetGitLog [rA] (-1) 1 false).1 = GGLOut.panik := by
  decide

/-- C2 amended: for nonnegative offset and limit the claim holds as
stated: empty log gives an empty result and no error, offset at or past
the length gives the out-of-bounds error, and otherwise the records at
indices offset to min (offset+limit) length are returned, with the
single oldest record appended when includeOldest is set.  Negative
offsets or limits instead panic on the slice expression. -/
theorem getGitLog_query_bounds (log : List GitLogRecord) (offset limit : Int)
    (inc : Bool) (hoff : 0 ≤ offset) (hlim : 0 ≤ limit) :
    (log = [] → GetGitLog log offset limit inc = (GGLOut.ok [], log))
    ∧ (log ≠ [] → (log.length : Int) ≤ offset →
        GetGitLog log offset limit inc = (GGLOut.errOOB, log))
    ∧ (log ≠ [] → offset < (log.length : Int) →
        (GetGitLog log offset limit inc).1 =
          GGLOut.ok
            ((log.take (min (offset.toNat + limit.toNat) log.length)).drop offset.toNat
              ++ (if inc then [log.getLastD default] else []))) := by
  refine ⟨?_, ?_, ?_⟩
  · intro h
    subst h
    rfl
  · intro hne hge
    unfold GetGitLog
    rw [if_neg (by simpa using hne), if_pos hge]
  · intro hne hlt
    unfold GetGitLog
    rw [if_neg (by simpa using hne), if_neg (by omega)]
    have hnopanik : ¬(offset < 0 ∨
        (if (log.length : Int) < offset + limit then (log.length : Int)
          else offset + limit) < offset) := by
      split <;> omega
    rw [if_neg hnopanik]
    have htoNat : (if (log.length : Int) < offset + limit then (log.length : Int)
        else offset + limit).toNat = min (offset.toNat + limit.toNat) log.length := by
      split <;> omega
    rw [htoNat]
    split <;> simp

/-- C2 amended witness: a window of one record plus the appended oldest
record on a two-record log. -/
theorem getGitLog_query_bounds_witness :
    GetGitLog [rA] 1 10 false = (GGLOut.errOOB, [rA]) :=
  (getGitLog_query_bounds [rA] 1 10 false (by decide) (by decide)).2.1
    (by decide) (by decide)

/-- C9: the claim says GetGitLog is read-only, in particular with
includeOldest set and a window ending strictly before the last record.
In Go, ret is a slice aliasing the backing array of s.gitLog, and
append(ret, oldest) writes that array at index end whenever end is below
the stored length: the stored record at index end is overwritten with
the oldest record.  On the log [rA, rB, rC] with offset 0, limit 1,
includeOldest true, the stored log after the call is [rA, rC, rC], not
[rA, rB, rC]: the code mutates the log the claim says is unchanged. -/
theorem getGitLog_mutates_stored_log :
    (GetGitLog [rA, rB, rC] 0 1 true).2 ≠ [rA, rB, rC] ∧
      (GetGitLog [rA, rB, rC] 0 1 true).2 = [rA, rC, rC] := by
  decide

/-- Helper: every event of a progress send burst is a send of one of
the requested values. -/
theorem mem_sends (env : CompileEnv) (vs : List Int) (e : CompileEvent)
    (he : e ∈ sends env vs) : ∃ v, v ∈ vs ∧ e = CompileEvent.send v := by
  revert he
  simp only [sends]
  split
  · intro he
    obtain ⟨v, hv, hev⟩ := List.mem_map.mp he
    exact ⟨v, hv, hev.symm⟩
  · intro he
    exact absurd he (List.not_mem_nil e)

/-- Helper: a script-run event never occurs in a send burst. -/
theorem script_not_mem_sends (env : CompileEnv) (vs : List Int) (n : ScriptName) :
    CompileEvent.runScript n ∉ sends env vs := by
  intro hmem
  obtain ⟨v, _, hev⟩ := mem_sends env vs _ hmem
  exact CompileEvent.noConfusion hev

/-- Helper: progress bursts contain no external events. -/
theorem externEvents_sends (env : CompileEnv) (vs : List Int) :
    externEvents (sends env vs) = [] := by
  unfold externEvents
  rw [List.filter_eq_nil_iff]
  intro a ha
  obtain ⟨v, _, hev⟩ := mem_sends env vs a ha
  subst hev
  simp [isExternal]

/-- Helper: externEvents distributes over append. -/
theorem externEvents_append (a b : List CompileEvent) :
    externEvents (a ++ b) = externEvents a ++ externEvents b := by
  unfold externEvents
  exact List.filter_append a b

/-- Helper: the deferred progress epilogue contains no external
events. -/
theorem externEvents_epilogue (c : Bool) :
    externEvents
      (if c then [CompileEvent.send 100, CompileEvent.closeChan] else []) = [] := by
  split <;> decide

/-- Whether an event is a script run. -/
def isScript : CompileEvent → Bool
  | .runScript _ => true
  | _ => false

/-- Helper: every event of the setup phase is a script run. -/
theorem setup_events_scripts (env : CompileEnv) :
    ∀ e ∈ (setupPhase env).1, isScript e = true := by
  simp only [setupPhase]
  repeat' split
  all_goals decide

/-- Helper: a script-run event satisfies the channel discipline. -/
theorem eventOKb_of_isScript (e : CompileEvent) (h : isScript e = true) :
    eventOKb e = true := by
  cases e <;> simp_all [isScript, eventOKb]

/-- Helper: append preservation of a pointwise event property. -/
theorem allOK_append (p : CompileEvent → Bool) (a b : List CompileEvent)
    (ha : ∀ e ∈ a, p e = true) (hb : ∀ e ∈ b, p e = true) :
    ∀ e ∈ a ++ b, p e = true := by
  intro e he
  rcases List.mem_append.mp he with h | h
  exacts [ha e h, hb e h]

/-- Helper: a pointwise property of send bursts from value bounds. -/
theorem allOK_sends (p : CompileEvent → Bool) (env : CompileEnv) (vs : List Int)
    (h : ∀ v ∈ vs, p (CompileEvent.send v) = true) :
    ∀ e ∈ sends env vs, p e = true := by
  intro e he
  obtain ⟨v, hv, hev⟩ := mem_sends env vs e he
  rw [hev]
  exact h v hv

/-- Helper: every event of the Compile body satisfies the channel
discipline: no close, and any sent value lies in 0 to 100. -/
theorem compileBody_eventOK (env : CompileEnv) (hash : String) (prof : Bool)
    (st : CompileState) :
    ∀ e ∈ (compileBody env hash prof st).2.2, eventOKb e = true := by
  have hsetup := setup_events_scripts env
  simp only [compileBody]
  repeat' split
  all_goals dsimp only
  all_goals
    repeat' first
      | apply allOK_append
      | exact allOK_sends eventOKb env _ (by decide)
      | exact fun e he => eventOKb_of_isScript e (hsetup e he)
      | decide

/-- Helper: send bursts never contain a build run. -/
theorem count_sends_runBuild (env : CompileEnv) (vs : List Int) :
    (sends env vs).count CompileEvent.runBuild = 0 := by
  rw [List.count_eq_zero]
  intro hmem
  obtain ⟨v, _, hev⟩ := mem_sends env vs _ hmem
  exact CompileEvent.noConfusion hev

/-- Helper: the setup phase never runs the build. -/
theorem count_setup_runBuild (env : CompileEnv) :
    (setupPhase env).1.count CompileEvent.runBuild = 0 := by
  rw [List.count_eq_zero]
  intro hmem
  have h := setup_events_scripts env _ hmem
  simp [isScript] at h

/-- Helper: one Compile body runs the external build at most once. -/
theorem compileBody_build_once (env : CompileEnv) (hash : String) (prof : Bool)
    (st : CompileState) :
    (compileBody env hash prof st).2.2.count CompileEvent.runBuild ≤ 1 := by
  simp only [compileBody]
  repeat' split
  all_goals dsimp only
  all_goals
    try simp only [List.count_append, count_sends_runBuild, count_setup_runBuild]
  all_goals decide

/-- Helper: when the binary archive for the key already exists, the
Compile body returns success immediately with only the two initial
progress ticks. -/
theorem compileBody_short_circuit (env : CompileEnv) (hash : String)
    (prof : Bool) (st : CompileState) (path : String)
    (hp : env.archivePathRes hash prof = Except.ok path)
    (hc : st.archives.contains path = true) :
    compileBody env hash prof st = (st, none, sends env [1, 2]) := by
  simp only [compileBody, hp]
  rw [if_pos hc]

/-- Helper: a successful Compile body leaves the archive for its key in
place: the key path resolves, and the resulting state contains it. -/
theorem compileBody_ok_exists (env : CompileEnv) (hash : String) (prof : Bool)
    (st : CompileState)
    (h : (compileBody env hash prof st).2.1 = none) :
    ∃ path, env.archivePathRes hash prof = Except.ok path
      ∧ (compileBody env hash prof st).1.archives.contains path = true := by
  revert h
  simp only [compileBody]
  repeat' split
  all_goals intro h
  all_goals try dsimp only at h
  all_goals first
    | exact Option.noConfusion h
    | exact ⟨_, by assumption, by assumption⟩
    | exact ⟨_, by assumption, by simp⟩

/-- C5: Compile is idempotent per (hash, profilingMode) key.  When the
binary archive for the key already exists, the call is an immediate
success with no checkout, submodule update, environment setup, build or
any other external action.  Any single call runs the external build at
most once, and after a successful call a second call with the same key
is a no-op success performing no build. -/
theorem compile_idempotent (env : CompileEnv) (hash : String) (prof : Bool)
    (st : CompileState) :
    (∀ path, env.archivePathRes hash prof = Except.ok path →
        st.archives.contains path = true →
          (Compile env hash prof st).1 = st
          ∧ (Compile env hash prof st).2.1 = none
          ∧ externEvents (Compile env hash prof st).2.2 = [])
    ∧ (Compile env hash prof st).2.2.count CompileEvent.runBuild ≤ 1
    ∧ ((Compile env hash prof st).2.1 = none →
        (Compile env hash prof ((Compile env hash prof st).1)).2.1 = none
        ∧ (Compile env hash prof ((Compile env hash prof st).1)).1 =
            (Compile env hash prof st).1
        ∧ (Compile env hash prof ((Compile env hash prof st).1)).2.2.count
            CompileEvent.runBuild = 0) := by
  have hCtrace : ∀ st2 : CompileState, (Compile env hash prof st2).2.2 =
      (compileBody env hash prof st2).2.2
        ++ (if env.progressNonNil then [CompileEvent.send 100, CompileEvent.closeChan]
            else []) := fun _ => rfl
  have hepi : (if env.progressNonNil then [CompileEvent.send 100, CompileEvent.closeChan]
      else []).count CompileEvent.runBuild = 0 := by
    split <;> decide
  refine ⟨?_, ?_, ?_⟩
  · intro path hp hc
    have hb := compileBody_short_circuit env hash prof st path hp hc
    refine ⟨?_, ?_, ?_⟩
    · show (compileBody env hash prof st).1 = st
      rw [hb]
    · show (compileBody env hash prof st).2.1 = none
      rw [hb]
    · rw [hCtrace st, externEvents_append, externEvents_epilogue]
      have hb2 : (compileBody env hash prof st).2.2 = sends env [1, 2] := by
        rw [hb]
      rw [hb2, externEvents_sends]
      rfl
  · rw [hCtrace st, List.count_append, hepi]
    have hbo := compileBody_build_once env hash prof st
    omega
  · intro hok
    obtain ⟨path, hp, hc⟩ := compileBody_ok_exists env hash prof st hok
    have hb2 := compileBody_short_circuit env hash prof
      ((compileBody env hash prof st).1) path hp hc
    refine ⟨?_, ?_, ?_⟩
    · show (compileBody env hash prof ((compileBody env hash prof st).1)).2.1 = none
      rw [hb2]
    · show (compileBody env hash prof ((compileBody env hash prof st).1)).1 =
        (compileBody env hash prof st).1
      rw [hb2]
    · rw [hCtrace ((Compile env hash prof st).1), List.count_append, hepi]
      have hb3 : (compileBody env hash prof ((Compile env hash prof st).1)).2.2 =
          sends env [1, 2] := by
        show (compileBody env hash prof ((compileBody env hash prof st).1)).2.2 =
          sends env [1, 2]
        rw [hb2]
      rw [hb3, count_sends_runBuild]

/-- C5 witness: after a full successful compile, a second call with the
same key is a no-op success. -/
theorem compile_idempotent_witness :
    (Compile envCompileAll hashW false
        ((Compile envCompileAll hashW false stC0).1)).2.1 = none ∧
      (Compile envCompileAll hashW false
        ((Compile envCompileAll hashW false stC0).1)).2.2.count
          CompileEvent.runBuild = 0 :=
  ⟨((compile_idempotent envCompileAll hashW false stC0).2.2 (by rfl)).1,
    ((compile_idempotent envCompileAll hashW false stC0).2.2 (by rfl)).2.2⟩

/-- C8: with a non-nil progress channel, the Compile trace always ends
with a send of 100 followed by the single channel close, on success and
on every failure path, and every value ever sent lies in 0 to 100. -/
theorem compile_progress_contract (env : CompileEnv) (hash : String)
    (prof : Bool) (st : CompileState) (hnn : env.progressNonNil = true) :
    (Compile env hash prof st).2.2 =
      (compileBody env hash prof st).2.2
        ++ [CompileEvent.send 100, CompileEvent.closeChan]
    ∧ (Compile env hash prof st).2.2.count CompileEvent.closeChan = 1
    ∧ ∀ v, CompileEvent.send v ∈ (Compile env hash prof st).2.2 →
        0 ≤ v ∧ v ≤ 100 := by
  have hbody := compileBody_eventOK env hash prof st
  have h1 : (Compile env hash prof st).2.2 =
      (compileBody env hash prof st).2.2
        ++ [CompileEvent.send 100, CompileEvent.closeChan] := by
    show (compileBody env hash prof st).2.2 ++ _ = _
    rw [hnn]
    rfl
  refine ⟨h1, ?_, ?_⟩
  · rw [h1, List.count_append]
    have h0 : (compileBody env hash prof st).2.2.count CompileEvent.closeChan = 0 := by
      rw [List.count_eq_zero]
      intro hmem
      have h2 := hbody _ hmem
      simp [eventOKb] at h2
    rw [h0]
    decide
  · intro v hv
    rw [h1] at hv
    rcases List.mem_append.mp hv with hm | hm
    · have h2 := hbody _ hm
      simpa [eventOKb] using h2
    · simp at hm
      omega

/-- C8 witness: the all-success environment closes the channel exactly
once. -/
theorem compile_progress_contract_witness :
    (Compile envCompileAll hashW false stC0).2.2.count CompileEvent.closeChan = 1 :=
  (compile_progress_contract envCompileAll hashW false stC0 (by rfl)).2.1

/-- Helper: a script-run event never occurs in the deferred channel
epilogue. -/
theorem script_not_mem_epilogue (c : Bool) (n : ScriptName) :
    CompileEvent.runScript n ∉
      (if c then [CompileEvent.send 100, CompileEvent.closeChan] else []) := by
  split <;> simp

/-- Helper: when a modern setup script is absent and the present ones
succeed, and the legacy configure script is absent or fails, the setup
phase ends in the legacy configuration error. -/
theorem setupPhase_fallback_err (env : CompileEnv)
    (habs : env.installToolsPresent = false ∨ env.setupDepsPresent = false)
    (hiOk : env.installToolsPresent = true → env.installToolsOk = true)
    (hdOk : env.setupDepsPresent = true → env.setupDepsOk = true)
    (hcfg : env.configurePresent = false ∨ env.configureOk = false) :
    (setupPhase env).2 = some CompileErr.legacyErr := by
  simp only [setupPhase]
  repeat' split
  all_goals simp_all

/-- Helper: when a modern setup script is absent, the present ones
succeed and the legacy configure script is present and succeeds, the
setup phase succeeds after running the configure script. -/
theorem setupPhase_fallback_ok (env : CompileEnv)
    (habs : env.installToolsPresent = false ∨ env.setupDepsPresent = false)
    (hiOk : env.installToolsPresent = true → env.installToolsOk = true)
    (hdOk : env.setupDepsPresent = true → env.setupDepsOk = true)
    (hcp : env.configurePresent = true) (hcok : env.configureOk = true) :
    (setupPhase env).2 = none
    ∧ CompileEvent.runScript ScriptName.configureScript ∈ (setupPhase env).1 := by
  simp only [setupPhase]
  repeat' split
  all_goals simp_all

/-- Helper: a present but failing install-build-tools script ends the
setup phase with the build-environment error before anything else. -/
theorem setupPhase_install_fail (env : CompileEnv)
    (hip : env.installToolsPresent = true) (hif : env.installToolsOk = false) :
    setupPhase env = ([CompileEvent.runScript ScriptName.installBuildTools],
      some CompileErr.buildEnvSetupErr) := by
  simp only [setupPhase]
  rw [if_pos ⟨hip, hif⟩]

/-- Helper: a present but failing setup-dependencies script ends the
setup phase with the dependency error and never consults the legacy
configure script. -/
theorem setupPhase_deps_fail (env : CompileEnv)
    (hdp : env.setupDepsPresent = true)
    (hiOk : env.installToolsPresent = true → env.installToolsOk = true)
    (hdf : env.setupDepsOk = false) :
    (setupPhase env).2 = some CompileErr.depInstallErr
    ∧ CompileEvent.runScript ScriptName.configureScript ∉ (setupPhase env).1 := by
  simp only [setupPhase]
  repeat' split
  all_goals simp_all

/-- C6: in the environment-setup phase of Compile, reached when the
archive is absent and checkout and submodule steps succeed: absence of
install-build-tools.sh or setup-dependencies.sh triggers fallback to
the legacy configure.sh path rather than an error — the configure
script runs and the setup phase itself fails only through configure;
on that fallback path, absence or failure of configure.sh makes Compile
return the legacy configuration error; while failure of a present
modern script makes Compile return its error without ever running the
legacy script. -/
theorem compile_setup_fallback (env : CompileEnv) (hash : String) (prof : Bool)
    (st : CompileState) (path : String)
    (hpath : env.archivePathRes hash prof = Except.ok path)
    (hnew : st.archives.contains path = false)
    (hco : env.checkoutOk hash = true)
    (hsync : env.submoduleSyncOk = true)
    (hupd : env.submoduleUpdateOk = true) :
    ((env.installToolsPresent = false ∨ env.setupDepsPresent = false) →
      (env.installToolsPresent = true → env.installToolsOk = true) →
      (env.setupDepsPresent = true → env.setupDepsOk = true) →
        ((env.configurePresent = false →
            (Compile env hash prof st).2.1 = some CompileErr.legacyErr)
          ∧ (env.configureOk = false →
            (Compile env hash prof st).2.1 = some CompileErr.legacyErr)
          ∧ (env.configurePresent = true → env.configureOk = true →
              CompileEvent.runScript ScriptName.configureScript ∈
                (Compile env hash prof st).2.2
              ∧ ((Compile env hash prof st).2.1 = none
                ∨ (Compile env hash prof st).2.1 = some CompileErr.buildErr
                ∨ (Compile env hash prof st).2.1 = some CompileErr.archiveErr))))
    ∧ (env.installToolsPresent = true → env.installToolsOk = false →
        (Compile env hash prof st).2.1 = some CompileErr.buildEnvSetupErr
        ∧ CompileEvent.runScript ScriptName.configureScript ∉
            (Compile env hash prof st).2.2)
    ∧ (env.setupDepsPresent = true →
        (env.installToolsPresent = true → env.installToolsOk = true) →
        env.setupDepsOk = false →
        (Compile env hash prof st).2.1 = some CompileErr.depInstallErr
        ∧ CompileEvent.runScript ScriptName.configureScript ∉
            (Compile env hash prof st).2.2) := by
  have hni : path ∉ st.archives := by simpa using hnew
  refine ⟨?_, ?_, ?_⟩
  · intro habs hiOk hdOk
    refine ⟨?_, ?_, ?_⟩
    · intro hcp
      have hs := setupPhase_fallback_err env habs hiOk hdOk (Or.inl hcp)
      simp [Compile, compileBody, hpath, hni, hco, hsync, hupd, hs]
    · intro hcok
      have hs := setupPhase_fallback_err env habs hiOk hdOk (Or.inr hcok)
      simp [Compile, compileBody, hpath, hni, hco, hsync, hupd, hs]
    · intro hcp hcok
      have hs := setupPhase_fallback_ok env habs hiOk hdOk hcp hcok
      constructor
      · simp only [Compile, compileBody, hpath, hco, hsync, hupd, hs.1]
        repeat' split
        all_goals simp_all [hs.2]
      · simp only [Compile, compileBody, hpath, hco, hsync, hupd, hs.1]
        repeat' split
        all_goals simp_all
  · intro hip hif
    have hs := setupPhase_install_fail env hip hif
    constructor
    · simp [Compile, compileBody, hpath, hni, hco, hsync, hupd, hs]
    · simp [Compile, compileBody, hpath, hni, hco, hsync, hupd, hs,
        List.mem_append, script_not_mem_sends, script_not_mem_epilogue]
  · intro hdp hiOk hdf
    have hs := setupPhase_deps_fail env hdp hiOk hdf
    constructor
    · simp [Compile, compileBody, hpath, hni, hco, hsync, hupd, hs.1]
    · simp [Compile, compileBody, hpath, hni, hco, hsync, hupd, hs.1, hs.2,
        List.mem_append, script_not_mem_sends, script_not_mem_epilogue]

/-- C6 witness: a present but failing install-build-tools script makes
Compile fail with the build-environment error. -/
theorem compile_setup_fallback_witness :
    (Compile envToolsFail hashW false stC0).2.1 = some CompileErr.buildEnvSetupErr :=
  ((compile_setup_fallback envToolsFail hashW false stC0 hashW (by rfl) (by rfl)
      (by rfl) (by rfl) (by rfl)).2.1 (by rfl) (by rfl)).1
